import Mathlib

/-!
Verification of the FlowKit `GatingResults` report component
(`flowkit/_models/gating_results.py`).

The raw per-gate outcome records consumed by `GatingResults.__init__` are
produced by `GatingStrategy.gate_sample`, which is not part of the sources
under study; their shape is modelled from the spec (section 3,
"RawOutcomeRecord"): a mapping keyed by `(gate_id, gate_path)` where
`gate_path` is an ordered sequence of ancestor gate ids, each value being
either a single outcome record (carrying an `events` boolean vector) or,
for quadrant gates, a mapping from sub-gate id to such records.

Python dictionaries are embedded as association lists in insertion order,
floating point numbers as rationals, and numpy boolean vectors as
`List Bool`.  Each query method returns an explicit result type whose
error constructors name the Python exception the source would raise.
-/

/-- A Python value used as the path component of a raw-results key or of a
`gate_path` argument: either an ordered sequence of gate ids (a tuple in the
tests, the spec's "ordered sequence of ancestor ids") or a `/`-delimited
string. -/
inductive PyPath where
  | seq (ids : List String)
  | str (s : String)
deriving DecidableEq, Repr

/-- Modelled from the spec: one raw outcome record (spec section 3,
"RawOutcomeRecord") as produced by the missing `GatingStrategy.gate_sample`:
`{sample, gate_path, parent, gate_type, count, absolute_percent,
relative_percent, events}`. -/
structure GateRecord where
  sample : String
  gate_path : List String
  parent : Option String
  gate_type : String
  count : Nat
  absolute_percent : Rat
  relative_percent : Rat
  events : List Bool
deriving DecidableEq, Repr

/-- Modelled from the spec: a raw-results value is either a plain record
(it has an `events` entry) or, for a quadrant gate, a mapping from sub-gate
id to records (no `events` entry); `_process_results` dispatches on
`'events' not in res`. -/
inductive RawRes where
  | simple (r : GateRecord)
  | quad (subs : List (String × GateRecord))
deriving DecidableEq, Repr

/-- The `results_dict` passed to `GatingResults.__init__`: a Python dict
keyed by `(gate_id, gate_path)`, embedded as an association list in
insertion order. -/
abbrev RawResults := List ((String × PyPath) × RawRes)

/-- One row of the report DataFrame assembled by `_process_results`
(including the `level` column added after assembly). -/
structure ReportRow where
  sample : String
  gate_path : List String
  gate_id : String
  gate_type : String
  quadrant_parent : Option String
  parent : Option String
  count : Nat
  absolute_percent : Rat
  relative_percent : Rat
  level : Nat
deriving DecidableEq, Repr

/-- `GatingResults._get_pd_result_dict(res_dict, gate_id)`: the report row
built from one record, with `quadrant_parent = None`.  The `level` column is
added by `_process_results` after the frame is assembled
(`df['level'] = df.gate_path.map(len)`); since it is a per-row function of
`gate_path` it is filled in here directly. -/
def get_pd_result_dict (r : GateRecord) (gid : String) : ReportRow :=
  { sample := r.sample
    gate_path := r.gate_path
    gate_id := gid
    gate_type := r.gate_type
    quadrant_parent := none
    parent := r.parent
    count := r.count
    absolute_percent := r.absolute_percent
    relative_percent := r.relative_percent
    level := r.gate_path.length }

/-- The report rows contributed by one entry of the raw-results dict
(the body of the loop in `_process_results`): a quadrant record yields one
row per sub-gate with `quadrant_parent` set to the quadrant gate's id, a
plain record yields a single row. -/
def resultRowsFor : (String × PyPath) × RawRes → List ReportRow
  | ((gId, _), RawRes.simple r) => [get_pd_result_dict r gId]
  | ((gId, _), RawRes.quad subs) =>
      subs.map fun s => { get_pd_result_dict s.2 s.1 with quadrant_parent := some gId }

/-- The `pd_list` accumulated by `_process_results`, in raw iteration
order. -/
def pdList : RawResults → List ReportRow
  | [] => []
  | e :: rest => resultRowsFor e ++ pdList rest

/-- The sort key used by `_process_results`:
`df.sort_values(['sample', 'level', 'gate_id'])`, ascending and
lexicographic. -/
def rowLE (a b : ReportRow) : Prop :=
  @LT.lt String String.instLT a.sample b.sample ∨
    (a.sample = b.sample ∧
      (a.level < b.level ∨
        (a.level = b.level ∧ @LE.le String String.instLE a.gate_id b.gate_id)))

instance rowLE.decRel : DecidableRel rowLE := fun a b =>
  @instDecidableOr _ _ (String.decLt a.sample b.sample)
    (@instDecidableAnd _ _ (String.decEq a.sample b.sample)
      (@instDecidableOr _ _ (Nat.decLt a.level b.level)
        (@instDecidableAnd _ _ (Nat.decEq a.level b.level)
          (String.decLE a.gate_id b.gate_id))))

/-- The sorted report DataFrame stored in `self.report`. -/
def report_of (raw : RawResults) : List ReportRow :=
  List.insertionSort rowLE (pdList raw)

/-- One update of the `_gate_lut` dict: append `p` to the `paths` list of
`gid`, creating the entry when absent (the if/else pairs in
`_process_results`). -/
def lutInsert : List (String × List PyPath) → String → PyPath → List (String × List PyPath)
  | [], gid, p => [(gid, [p])]
  | e :: rest, gid, p =>
      if e.1 = gid then (e.1, e.2 ++ [p]) :: rest else e :: lutInsert rest gid p

/-- The lut updates contributed by one raw entry: a plain record registers
the key's gate id, a quadrant record registers each sub-gate id; in both
cases the registered path is the key's `gate_path`. -/
def lutStep (lut : List (String × List PyPath)) : (String × PyPath) × RawRes → List (String × List PyPath)
  | ((gId, gPath), RawRes.simple _) => lutInsert lut gId gPath
  | ((_, gPath), RawRes.quad subs) =>
      subs.foldl (fun acc s => lutInsert acc s.1 gPath) lut

/-- `self._gate_lut` as built by `_process_results`. -/
def buildLut (raw : RawResults) : List (String × List PyPath) :=
  raw.foldl lutStep []

/-- Lookup in the embedded `_gate_lut`; `none` models the `KeyError` a
missing gate id raises. -/
def lutGet (lut : List (String × List PyPath)) (gid : String) : Option (List PyPath) :=
  (lut.find? fun e => decide (e.1 = gid)).map fun e => e.2

/-- The paths the lut accumulates for `gid` from a single raw entry, in
iteration order. -/
def entryLutPaths (gid : String) : (String × PyPath) × RawRes → List PyPath
  | ((gId, gPath), RawRes.simple _) => if gId = gid then [gPath] else []
  | ((_, gPath), RawRes.quad subs) =>
      (subs.filter fun s => decide (s.1 = gid)).map fun _ => gPath

/-- All paths the lut accumulates for `gid`, in iteration order: the value
of `self._gate_lut[gid]['paths']` (empty when the id is absent). -/
def lutPaths (gid : String) : RawResults → List PyPath
  | [] => []
  | e :: rest => entryLutPaths gid e ++ lutPaths gid rest

/-- The state of a constructed `GatingResults` object: the raw results and
sample id stored by `__init__`, plus the lut and report built by
`_process_results`. -/
structure GatingResults where
  raw_results : RawResults
  sample_id : String
  gate_lut : List (String × List PyPath)
  report : List ReportRow
deriving DecidableEq, Repr

/-- `GatingResults.__init__(results_dict, sample_id)` followed by
`_process_results`. -/
def GatingResults.build (results_dict : RawResults) (sample_id : String) : GatingResults :=
  { raw_results := results_dict
    sample_id := sample_id
    gate_lut := buildLut results_dict
    report := report_of results_dict }

/-- A value the caller may pass as the `gate_path` argument of
`get_gate_indices`: a Python list of ids, a `/`-delimited string, or a
tuple of ids.  Only a list is converted by the
`isinstance(gate_path, list)` branch; strings and tuples are used as
passed. -/
inductive PathArg where
  | list (ids : List String)
  | str (s : String)
  | tup (ids : List String)
deriving DecidableEq, Repr

/-- The key path `get_gate_indices` ends up using for the raw-results
lookup when the caller supplied `arg`: a list is joined with
`"/".join(gate_path)`, other values pass through. -/
def pathOfArg : PathArg → PyPath
  | PathArg.list ids => PyPath.str (String.intercalate ("/") ids)
  | PathArg.str s => PyPath.str s
  | PathArg.tup ids => PyPath.seq ids

/-- Outcome of `get_gate_indices`; error constructors name the Python
exception raised by the corresponding line of the source. -/
inductive GateIndicesResult where
  /-- the NumPy boolean membership vector returned on success -/
  | ok (events : List Bool)
  /-- `KeyError` from `self._gate_lut[gate_id]`: unknown gate id -/
  | keyErrorLut
  /-- `IndexError` from `gate_paths[0]` on an empty path list (unreachable
  for built instances) -/
  | indexErrorEmptyPaths
  /-- `ValueError`: "Gate ID %s is ambiguous, specify the full gate path" -/
  | ambiguousError
  /-- `KeyError` from `self._raw_results[...]`: no record under that key -/
  | keyErrorRawKey
  /-- `KeyError` from `[...]['events']`: the record found is a quadrant
  mapping with no `events` entry -/
  | keyErrorEventsField
  /-- `KeyError` from `[...][gate_id]`: the quadrant-parent record has no
  sub-record under `gate_id` -/
  | keyErrorSubId
  /-- `ValueError`: "Report as bug: The gate %s appears to have multiple
  quadrant parents." -/
  | multipleQuadParents
deriving DecidableEq, Repr

/-- The row predicate
`(self.report['sample'] == self.sample_id) & (self.report.gate_id == gate_id)`
shared by all four query methods. -/
def rowMatches (sid gid : String) (row : ReportRow) : Bool :=
  decide (row.sample = sid) && decide (row.gate_id = gid)

/-- The filtered report selection the query methods operate on. -/
def gateRows (R : GatingResults) (gid : String) : List ReportRow :=
  R.report.filter (rowMatches R.sample_id gid)

/-- Python dict lookup on the raw-results mapping (`KeyError` as
`none`). -/
def dictLookup (raw : RawResults) (k : String × PyPath) : Option RawRes :=
  (raw.find? fun e => decide (e.1 = k)).map fun e => e.2

/-- Lines 102-113 of `get_gate_indices`: the quadrant-gate check over the
filtered report rows and the final raw-results access, after the gate path
has been resolved to `gate_path`. -/
def gateIndicesAux (R : GatingResults) (gid : String) (gate_path : PyPath) : GateIndicesResult :=
  match ((gateRows R gid).map fun row => row.quadrant_parent).dedup with
  | [Option.none] =>
      match dictLookup R.raw_results (gid, gate_path) with
      | Option.none => GateIndicesResult.keyErrorRawKey
      | some (RawRes.simple r) => GateIndicesResult.ok r.events
      | some (RawRes.quad _) => GateIndicesResult.keyErrorEventsField
  | [some quad_parent] =>
      match dictLookup R.raw_results (quad_parent, gate_path) with
      | Option.none => GateIndicesResult.keyErrorRawKey
      | some (RawRes.simple _) => GateIndicesResult.keyErrorSubId
      | some (RawRes.quad subs) =>
          match subs.find? fun s => decide (s.1 = gid) with
          | Option.none => GateIndicesResult.keyErrorSubId
          | some s => GateIndicesResult.ok s.2.events
  | _ => GateIndicesResult.multipleQuadParents

/-- `GatingResults.get_gate_indices(gate_id, gate_path=None)`. -/
def get_gate_indices (R : GatingResults) (gate_id : String) (gate_path : Option PathArg) : GateIndicesResult :=
  match lutGet R.gate_lut gate_id with
  | Option.none => GateIndicesResult.keyErrorLut
  | some gate_paths =>
      if 1 < gate_paths.length then
        match gate_path with
        | Option.none => GateIndicesResult.ambiguousError
        | some a => gateIndicesAux R gate_id (pathOfArg a)
      else
        match gate_paths with
        | [] => GateIndicesResult.indexErrorEmptyPaths
        | p :: _ => gateIndicesAux R gate_id p

/-- Outcome of the id-only scalar accessors. -/
inductive ScalarResult (α : Type) where
  /-- `results[col].values[0]` on a one-row selection -/
  | ok (v : α)
  /-- `NotImplementedError`: "Gate ID %s is ambiguous and gate_path is not
  yet implemented for this method" -/
  | ambiguousNotImplemented
  /-- `IndexError` from `values[0]` on an empty selection -/
  | indexError
deriving DecidableEq, Repr

/-- `GatingResults.get_gate_count(gate_id)`. -/
def get_gate_count (R : GatingResults) (gate_id : String) : ScalarResult Nat :=
  let results := gateRows R gate_id
  if 1 < results.length then ScalarResult.ambiguousNotImplemented
  else
    match results with
    | [] => ScalarResult.indexError
    | r :: _ => ScalarResult.ok r.count

/-- `GatingResults.get_gate_absolute_percent(gate_id)`. -/
def get_gate_absolute_percent (R : GatingResults) (gate_id : String) : ScalarResult Rat :=
  let results := gateRows R gate_id
  if 1 < results.length then ScalarResult.ambiguousNotImplemented
  else
    match results with
    | [] => ScalarResult.indexError
    | r :: _ => ScalarResult.ok r.absolute_percent

/-- `GatingResults.get_gate_relative_percent(gate_id)`. -/
def get_gate_relative_percent (R : GatingResults) (gate_id : String) : ScalarResult Rat :=
  let results := gateRows R gate_id
  if 1 < results.length then ScalarResult.ambiguousNotImplemented
  else
    match results with
    | [] => ScalarResult.indexError
    | r :: _ => ScalarResult.ok r.relative_percent

/-- One query invocation against a `GatingResults` instance. -/
inductive Query where
  | indices (gid : String) (arg : Option PathArg)
  | count (gid : String)
  | absPct (gid : String)
  | relPct (gid : String)
deriving DecidableEq, Repr

/-- The observable outcome of a query. -/
inductive QueryOutcome where
  | idx (r : GateIndicesResult)
  | nat (r : ScalarResult Nat)
  | rat (r : ScalarResult Rat)
deriving DecidableEq, Repr

/-- Run one query against the instance state, returning its outcome and
the post-call state.  None of the four source methods assigns to any
attribute of `self`, so the post-call state is the received state. -/
def runQuery (R : GatingResults) : Query → QueryOutcome × GatingResults
  | Query.indices gid arg => (QueryOutcome.idx (get_gate_indices R gid arg), R)
  | Query.count gid => (QueryOutcome.nat (get_gate_count R gid), R)
  | Query.absPct gid => (QueryOutcome.rat (get_gate_absolute_percent R gid), R)
  | Query.relPct gid => (QueryOutcome.rat (get_gate_relative_percent R gid), R)

/-- Run a sequence of queries, threading the state through. -/
def runQueries (R : GatingResults) (qs : List Query) : GatingResults :=
  qs.foldl (fun s q => (runQuery s q).2) R

/-- Modelled from the spec: structural sanity of one raw entry as produced
by the missing `GatingStrategy.gate_sample` — every record belongs to the
one sample the Results object is for ("the Results object owns the full
row set for exactly one sample"), and a quadrant mapping is a Python dict,
so its sub-gate ids are distinct. -/
def entryWF (sid : String) (e : (String × PyPath) × RawRes) : Prop :=
  match e.2 with
  | RawRes.simple r => r.sample = sid
  | RawRes.quad subs =>
      (subs.map fun s => s.1).Nodup ∧ ∀ s ∈ subs, s.2.sample = sid

instance entryWF.dec (sid : String) (e : (String × PyPath) × RawRes) : Decidable (entryWF sid e) := by
  obtain ⟨k, r | subs⟩ := e <;> · unfold entryWF; infer_instance

/-- Modelled from the spec: well-formed raw results — the keys are those
of a Python dict, hence pairwise distinct, and every entry is for the
Results object's sample. -/
def WF (raw : RawResults) (sid : String) : Prop :=
  (raw.map fun e => e.1).Nodup ∧ ∀ e ∈ raw, entryWF sid e

instance WF.dec (raw : RawResults) (sid : String) : Decidable (WF raw sid) :=
  inferInstanceAs (Decidable (_ ∧ _))

/-- Modelled from the spec: section 4.3 step 4 of `evaluate` sets
`count = sum(mask)` for every produced record. -/
def entryCountsOK (e : (String × PyPath) × RawRes) : Prop :=
  match e.2 with
  | RawRes.simple r => r.count = r.events.count true
  | RawRes.quad subs => ∀ s ∈ subs, s.2.count = s.2.events.count true

instance entryCountsOK.dec (e : (String × PyPath) × RawRes) : Decidable (entryCountsOK e) := by
  obtain ⟨k, r | subs⟩ := e <;> · unfold entryCountsOK; infer_instance

/-- Modelled from the spec: every record of the raw results carries the
count of its own membership vector (spec section 4.3 step 4). -/
def CountsConsistent (raw : RawResults) : Prop :=
  ∀ e ∈ raw, entryCountsOK e

instance CountsConsistent.dec (raw : RawResults) : Decidable (CountsConsistent raw) :=
  inferInstanceAs (Decidable (∀ e ∈ raw, entryCountsOK e))

/-- Whether a raw entry registers `gid` in the lut (i.e. contributes a
report row for it). -/
def contributesTo (gid : String) (e : (String × PyPath) × RawRes) : Prop :=
  entryLutPaths gid e ≠ []

instance contributesTo.dec (gid : String) (e : (String × PyPath) × RawRes) :
    Decidable (contributesTo gid e) :=
  inferInstanceAs (Decidable (entryLutPaths gid e ≠ []))

/-- The membership vector an entry stores for gate id `gid`: the record's
own `events` for a plain record, the matching sub-record's `events` for a
quadrant mapping. -/
def entryEventsFor (gid : String) : (String × PyPath) × RawRes → Option (List Bool)
  | ((gId, _), RawRes.simple r) => if gId = gid then some r.events else none
  | (_, RawRes.quad subs) =>
      (subs.find? fun s => decide (s.1 = gid)).map fun s => s.2.events

/-- Modelled from the spec: the record `evaluate` produces for a gate
(section 4.3 step 4): `count = sum(mask)`,
`absolute_percent = 100 * count / total_sample_events`,
`relative_percent = 100 * count / parent_count`. -/
def mkOutcomeRecord (sample : String) (gate_path : List String) (parent : Option String)
    (gate_type : String) (events : List Bool) (total parentCount : Nat) : GateRecord :=
  { sample := sample
    gate_path := gate_path
    parent := parent
    gate_type := gate_type
    count := events.count true
    absolute_percent := 100 * (events.count true : Rat) / (total : Rat)
    relative_percent := 100 * (events.count true : Rat) / (parentCount : Rat)
    events := events }

/-- The abstract effect of one lut update step on a lookup: the paths the
entry contributes are appended to the id's path list. -/
def lutAppend (old : Option (List PyPath)) (ps : List PyPath) : Option (List PyPath) :=
  match old with
  | some existing => some (existing ++ ps)
  | none => if ps = [] then none else some ps

/-- A plain outcome record for the concrete test instances: `count` is kept
consistent with `events` and the percent fields carry arbitrary distinct
rationals. -/
def sampleRecord (sid : String) (gp : List String) (cnt : Nat) (ev : List Bool) : GateRecord :=
  { sample := sid
    gate_path := gp
    parent := none
    gate_type := "RectangleGate"
    count := cnt
    absolute_percent := 1
    relative_percent := 2
    events := ev }

/-- A quadrant entry with two sub-gates, used by the concrete test
instances. -/
def wQuadEntry : (String × PyPath) × RawRes :=
  (("Q", PyPath.seq ["root"]), RawRes.quad
    [ ("Qp1", sampleRecord "s" ["root", "Q"] 1 [true, false, false]),
      ("Qp2", sampleRecord "s" ["root", "Q"] 2 [false, true, true]) ])

/-- Concrete raw results over a three-event sample: gate `A` at one path,
gate `X` reused at two paths, and quadrant gate `Q` with sub-gates `Qp1`
and `Qp2`. -/
def wRaw : RawResults :=
  [ (("A", PyPath.seq ["root"]), RawRes.simple (sampleRecord "s" ["root"] 2 [true, true, false])),
    (("X", PyPath.seq ["root", "A"]), RawRes.simple (sampleRecord "s" ["root", "A"] 1 [true, false, false])),
    (("X", PyPath.seq ["root", "B"]), RawRes.simple (sampleRecord "s" ["root", "B"] 1 [false, true, false])),
    wQuadEntry ]

/-- Concrete raw results in which sub-gate id `D` is registered under two
distinct quadrant parents (`Q1` and `Q2`) — the internal-consistency
situation of the spec. -/
def mqpRaw : RawResults :=
  [ (("Q1", PyPath.seq ["root"]), RawRes.quad
      [("D", sampleRecord "s" ["root", "Q1"] 1 [true, false])]),
    (("Q2", PyPath.seq ["root", "A"]), RawRes.quad
      [("D", sampleRecord "s" ["root", "A", "Q2"] 1 [false, true])]) ]

/-- The membership vector of the example gate `B`: 558 matching events out
of `558 + k`. -/
def c8Events (k : Nat) : List Bool := List.replicate 558 true ++ List.replicate k false

/-- Modelled from the spec: the raw records `evaluate` produces for the
end-to-end example tree root→A→B over a sample of `558 + k` events, where
the parent gate `A` covers the whole sample and 558 events match `B`
(spec section 8, last example). -/
def c8Raw (k : Nat) : RawResults :=
  [ (("A", PyPath.seq ["root"]), RawRes.simple
      (mkOutcomeRecord "s" ["root"] none "RectangleGate"
        (List.replicate (558 + k) true) (558 + k) (558 + k))),
    (("B", PyPath.seq ["root", "A"]), RawRes.simple
      (mkOutcomeRecord "s" ["root", "A"] (some "A") "RectangleGate"
        (c8Events k) (558 + k) (558 + k))) ]

theorem lutGet_nil (gid : String) : lutGet [] gid = none := rfl

theorem lutGet_cons (k : String) (v : List PyPath) (t : List (String × List PyPath))
    (gid : String) :
    lutGet ((k, v) :: t) gid = if k = gid then some v else lutGet t gid := by
  by_cases h : k = gid <;> simp [lutGet, List.find?_cons, h]

theorem lutGet_lutInsert (lut : List (String × List PyPath)) (g : String) (p : PyPath)
    (gid : String) :
    lutGet (lutInsert lut g p) gid =
      if g = gid then some (((lutGet lut g).getD []) ++ [p]) else lutGet lut gid := by
  induction lut with
  | nil =>
      by_cases h : g = gid <;> simp [lutInsert, lutGet_cons, lutGet_nil, h]
  | cons a t ih =>
      obtain ⟨ka, va⟩ := a
      by_cases hag : ka = g
      · subst hag
        by_cases hgid : ka = gid
        · subst hgid
          simp [lutInsert, lutGet_cons]
        · simp [lutInsert, lutGet_cons, hgid]
      · by_cases hgid : ka = gid
        · subst hgid
          have hg : ¬ g = ka := fun h => hag h.symm
          simp [lutInsert, lutGet_cons, hag, hg]
        · simp [lutInsert, lutGet_cons, hag, hgid, ih]

theorem lutAppend_nil (old : Option (List PyPath)) : lutAppend old [] = old := by
  cases old <;> simp [lutAppend]

theorem lutAppend_append (old : Option (List PyPath)) (ps qs : List PyPath) :
    lutAppend (lutAppend old ps) qs = lutAppend old (ps ++ qs) := by
  cases old with
  | some existing => simp [lutAppend]
  | none =>
      by_cases hp : ps = []
      · subst hp; simp [lutAppend]
      · by_cases hq : qs = []
        · subst hq; simp [lutAppend, hp]
        · have : ps ++ qs ≠ [] := by simp [hp]
          simp [lutAppend, hp, hq, this]

theorem lutGet_foldl_lutInsert (subs : List (String × GateRecord)) (gPath : PyPath)
    (lut : List (String × List PyPath)) (gid : String) :
    lutGet (subs.foldl (fun acc s => lutInsert acc s.1 gPath) lut) gid =
      lutAppend (lutGet lut gid)
        ((subs.filter fun s => decide (s.1 = gid)).map fun _ => gPath) := by
  induction subs generalizing lut with
  | nil => simp [lutAppend_nil]
  | cons s rest ih =>
      rw [List.foldl_cons, ih]
      by_cases h : s.1 = gid
      · rw [lutGet_lutInsert]
        simp only [h, if_pos rfl]
        rw [List.filter_cons_of_pos (by simp [h]), List.map_cons]
        cases hold : lutGet lut gid with
        | none => simp [lutAppend, hold]
        | some existing => simp [lutAppend, hold]
      · rw [lutGet_lutInsert, if_neg h, List.filter_cons_of_neg (by simp [h])]

theorem lutGet_lutStep (lut : List (String × List PyPath)) (e : (String × PyPath) × RawRes)
    (gid : String) :
    lutGet (lutStep lut e) gid = lutAppend (lutGet lut gid) (entryLutPaths gid e) := by
  obtain ⟨⟨gId, gPath⟩, r | subs⟩ := e
  · by_cases h : gId = gid
    · subst h
      simp [lutStep, entryLutPaths, lutGet_lutInsert]
      cases hold : lutGet lut gId with
      | none => simp [lutAppend]
      | some existing => simp [lutAppend]
    · simp [lutStep, entryLutPaths, lutGet_lutInsert, h, lutAppend_nil]
  · simpa [lutStep, entryLutPaths] using lutGet_foldl_lutInsert subs gPath lut gid

theorem lutGet_foldl_lutStep (raw : RawResults) (lut : List (String × List PyPath))
    (gid : String) :
    lutGet (raw.foldl lutStep lut) gid = lutAppend (lutGet lut gid) (lutPaths gid raw) := by
  induction raw generalizing lut with
  | nil => simp [lutPaths, lutAppend_nil]
  | cons e rest ih =>
      rw [List.foldl_cons, ih, lutGet_lutStep, lutAppend_append]
      rfl

/-- The built `_gate_lut` answers exactly the accumulated path list:
`KeyError` (`none`) when the gate id never occurs, otherwise all its
registered paths in registration order. -/
theorem lutGet_buildLut (raw : RawResults) (gid : String) :
    lutGet (buildLut raw) gid =
      if lutPaths gid raw = [] then none else some (lutPaths gid raw) := by
  rw [buildLut, lutGet_foldl_lutStep]
  rfl

theorem dictLookup_cons (e : (String × PyPath) × RawRes) (t : RawResults)
    (k : String × PyPath) :
    dictLookup (e :: t) k = if e.1 = k then some e.2 else dictLookup t k := by
  by_cases h : e.1 = k <;> simp [dictLookup, List.find?_cons, h]

/-- In a raw-results dict (pairwise distinct keys), looking up the key of a
member entry returns that entry's value. -/
theorem dictLookup_of_mem (raw : RawResults) (e : (String × PyPath) × RawRes)
    (hnd : (raw.map fun x => x.1).Nodup) (he : e ∈ raw) :
    dictLookup raw e.1 = some e.2 := by
  induction raw with
  | nil => cases he
  | cons a t ih =>
      rw [List.map_cons, List.nodup_cons] at hnd
      rcases List.mem_cons.mp he with h | h
      · subst h
        simp [dictLookup_cons]
      · have hne : a.1 ≠ e.1 := by
          intro hk
          exact hnd.1 (hk ▸ List.mem_map_of_mem (fun x => x.1) h)
        rw [dictLookup_cons, if_neg hne]
        exact ih hnd.2 h

/-- `find?` on a list whose filtrate is a singleton returns exactly that
element. -/
theorem find?_of_filter_singleton {α : Type} (p : α → Bool) (l : List α) (a : α)
    (h : l.filter p = [a]) : l.find? p = some a := by
  induction l with
  | nil => simp at h
  | cons x t ih =>
      by_cases hx : p x
      · rw [List.filter_cons_of_pos hx] at h
        rw [List.find?_cons_of_pos _ hx]
        exact congrArg some (List.cons_eq_cons.mp h).1
      · rw [List.filter_cons_of_neg hx] at h
        rw [List.find?_cons_of_neg _ hx]
        exact ih h

theorem pdList_append (xs ys : RawResults) :
    pdList (xs ++ ys) = pdList xs ++ pdList ys := by
  induction xs with
  | nil => rfl
  | cons e t ih => simp [pdList, ih]

/-- The report rows an entry contributes for gate id `gid` and sample
`sid`, once the entry is known to be for sample `sid`: a plain record
yields its row exactly when its id matches, a quadrant record yields one
row per matching sub id. -/
theorem filter_resultRowsFor (sid gid : String) (e : (String × PyPath) × RawRes)
    (hw : entryWF sid e) :
    (resultRowsFor e).filter (rowMatches sid gid) =
      match e with
      | ((gId, _), RawRes.simple r) =>
          if gId = gid then [get_pd_result_dict r gId] else []
      | ((gId, _), RawRes.quad subs) =>
          (subs.filter fun s => decide (s.1 = gid)).map fun s =>
            { get_pd_result_dict s.2 s.1 with quadrant_parent := some gId } := by
  obtain ⟨⟨gId, gPath⟩, r | subs⟩ := e
  · have hs : r.sample = sid := hw
    by_cases h : gId = gid <;>
      simp [resultRowsFor, rowMatches, get_pd_result_dict, hs, h]
  · obtain ⟨hnd, hs⟩ := hw
    simp only [resultRowsFor]
    rw [List.filter_map]
    have hpred : ∀ s ∈ subs,
        (rowMatches sid gid ∘ fun s =>
          { get_pd_result_dict s.2 s.1 with quadrant_parent := some gId }) s =
        decide (s.1 = gid) := by
      intro s hsmem
      simp [rowMatches, get_pd_result_dict, hs s hsmem]
    rw [List.filter_congr hpred]

/-- Row-count correspondence: under per-entry well-formedness the report
selection for `gid` has exactly one row per registered lut path. -/
theorem length_filter_resultRowsFor (sid gid : String) (e : (String × PyPath) × RawRes)
    (hw : entryWF sid e) :
    ((resultRowsFor e).filter (rowMatches sid gid)).length = (entryLutPaths gid e).length := by
  rw [filter_resultRowsFor sid gid e hw]
  obtain ⟨⟨gId, gPath⟩, r | subs⟩ := e
  · by_cases h : gId = gid <;> simp [entryLutPaths, h]
  · simp [entryLutPaths]

theorem length_filter_pdList (sid gid : String) (raw : RawResults)
    (hw : ∀ e ∈ raw, entryWF sid e) :
    ((pdList raw).filter (rowMatches sid gid)).length = (lutPaths gid raw).length := by
  induction raw with
  | nil => rfl
  | cons e t ih =>
      have he : entryWF sid e := hw e (List.mem_cons_self e t)
      have ht : ∀ x ∈ t, entryWF sid x := fun x hx => hw x (List.mem_cons_of_mem e hx)
      simp only [pdList, lutPaths, List.filter_append, List.length_append]
      rw [length_filter_resultRowsFor sid gid e he, ih ht]

theorem lutPaths_eq_nil_iff (gid : String) (raw : RawResults) :
    lutPaths gid raw = [] ↔ ∀ e ∈ raw, entryLutPaths gid e = [] := by
  induction raw with
  | nil => simp [lutPaths]
  | cons e t ih =>
      simp only [lutPaths, List.append_eq_nil, ih]
      constructor
      · rintro ⟨h1, h2⟩ x hx
        rcases List.mem_cons.mp hx with h | h
        · exact h ▸ h1
        · exact h2 x h
      · intro h
        exact ⟨h e (List.mem_cons_self e t), fun x hx => h x (List.mem_cons_of_mem e hx)⟩

/-- The report stored by `build` is a permutation of the flattened raw
rows. -/
theorem report_perm_pdList (raw : RawResults) (sid : String) :
    ((GatingResults.build raw sid).report).Perm (pdList raw) := by
  simpa [GatingResults.build, report_of] using List.perm_insertionSort rowLE (pdList raw)

theorem gateRows_perm (raw : RawResults) (sid gid : String) :
    (gateRows (GatingResults.build raw sid) gid).Perm
      ((pdList raw).filter (rowMatches sid gid)) := by
  simpa [gateRows, GatingResults.build] using
    (report_perm_pdList raw sid).filter (rowMatches sid gid)

theorem length_gateRows (raw : RawResults) (sid gid : String)
    (hw : ∀ e ∈ raw, entryWF sid e) :
    (gateRows (GatingResults.build raw sid) gid).length = (lutPaths gid raw).length := by
  rw [(gateRows_perm raw sid gid).length_eq, length_filter_pdList sid gid raw hw]

/-- When a gate id is registered at exactly one lut path, exactly one raw
entry contributes it, and the whole report selection for the id comes from
that entry. -/
theorem lut_unique_entry (sid gid : String) (p : PyPath) (raw : RawResults)
    (hw : ∀ e ∈ raw, entryWF sid e) (h1 : lutPaths gid raw = [p]) :
    ∃ e ∈ raw, entryLutPaths gid e = [p] ∧
      (∀ e2 ∈ raw, contributesTo gid e2 → e2 = e) ∧
      (pdList raw).filter (rowMatches sid gid) =
        (resultRowsFor e).filter (rowMatches sid gid) := by
  induction raw with
  | nil => simp [lutPaths] at h1
  | cons a t ih =>
      have hwa : entryWF sid a := hw a (List.mem_cons_self a t)
      have hwt : ∀ x ∈ t, entryWF sid x := fun x hx => hw x (List.mem_cons_of_mem a hx)
      rw [lutPaths] at h1
      cases hx : entryLutPaths gid a with
      | nil =>
          rw [hx, List.nil_append] at h1
          obtain ⟨e, he, hsing, huniq, hfilt⟩ := ih hwt h1
          refine ⟨e, List.mem_cons_of_mem a he, hsing, ?_, ?_⟩
          · intro e2 he2 hc
            rcases List.mem_cons.mp he2 with h | h
            · exact absurd (h ▸ hx) (h ▸ hc)
            · exact huniq e2 h hc
          · have hza : ((resultRowsFor a).filter (rowMatches sid gid)).length = 0 := by
              rw [length_filter_resultRowsFor sid gid a hwa, hx]
              rfl
            rw [pdList, List.filter_append, List.length_eq_zero.mp hza, List.nil_append]
            exact hfilt
      | cons q x =>
          rw [hx, List.cons_append] at h1
          obtain ⟨hq, hrest⟩ := List.cons_eq_cons.mp h1
          obtain ⟨hxnil, htnil⟩ := List.append_eq_nil.mp hrest
          subst hq hxnil
          refine ⟨a, List.mem_cons_self a t, hx, ?_, ?_⟩
          · intro e2 he2 hc
            rcases List.mem_cons.mp he2 with h | h
            · exact h
            · exact absurd ((lutPaths_eq_nil_iff gid t).mp htnil e2 h) hc
          · have hzt : ((pdList t).filter (rowMatches sid gid)).length = 0 := by
              rw [length_filter_pdList sid gid t hwt, htnil]
              rfl
            rw [pdList, List.filter_append, List.length_eq_zero.mp hzt, List.append_nil]

/-- Unknown gate id: the lut access raises `KeyError` whatever the path
argument. -/
theorem get_gate_indices_of_none (R : GatingResults) (gid : String)
    (h : lutGet R.gate_lut gid = none) (a : Option PathArg) :
    get_gate_indices R gid a = GateIndicesResult.keyErrorLut := by
  rw [get_gate_indices.eq_def, h]

/-- Exactly one registered path: the path argument is ignored and the
lookup continues with the stored path. -/
theorem get_gate_indices_of_single (R : GatingResults) (gid : String) (p : PyPath)
    (h : lutGet R.gate_lut gid = some [p]) (a : Option PathArg) :
    get_gate_indices R gid a = gateIndicesAux R gid p := by
  rw [get_gate_indices.eq_def, h]
  rfl

/-- Several registered paths, no path argument: `ValueError`. -/
theorem get_gate_indices_of_multi_none (R : GatingResults) (gid : String)
    (ps : List PyPath) (h : lutGet R.gate_lut gid = some ps) (hlen : 1 < ps.length) :
    get_gate_indices R gid none = GateIndicesResult.ambiguousError := by
  rw [get_gate_indices.eq_def, h]
  simp [hlen]

/-- Several registered paths, path argument supplied: the converted
argument is used for the raw lookup. -/
theorem get_gate_indices_of_multi_some (R : GatingResults) (gid : String)
    (ps : List PyPath) (a : PathArg) (h : lutGet R.gate_lut gid = some ps)
    (hlen : 1 < ps.length) :
    get_gate_indices R gid (some a) = gateIndicesAux R gid (pathOfArg a) := by
  rw [get_gate_indices.eq_def, h]
  simp [hlen]

theorem dedupSingleton {α : Type} [DecidableEq α] (a : α) : List.dedup [a] = [a] := by
  rw [List.dedup_cons_of_not_mem (by simp), List.dedup_nil]

/-- A one-row selection with no quadrant parent: the raw record under
`(gate_id, gate_path)` supplies the vector. -/
theorem gateIndicesAux_simple (R : GatingResults) (gid : String) (gate_path : PyPath)
    (r0 : ReportRow) (rec : GateRecord) (hgr : gateRows R gid = [r0])
    (hqp : r0.quadrant_parent = none)
    (hdl : dictLookup R.raw_results (gid, gate_path) = some (RawRes.simple rec)) :
    gateIndicesAux R gid gate_path = GateIndicesResult.ok rec.events := by
  rw [gateIndicesAux.eq_def, hgr]
  simp only [List.map_cons, List.map_nil, hqp, dedupSingleton]
  show (match dictLookup R.raw_results (gid, gate_path) with
    | Option.none => GateIndicesResult.keyErrorRawKey
    | some (RawRes.simple r) => GateIndicesResult.ok r.events
    | some (RawRes.quad _) => GateIndicesResult.keyErrorEventsField) = _
  rw [hdl]

/-- A one-row selection tagged with a quadrant parent: the parent's
quadrant record supplies the sub-gate's vector. -/
theorem gateIndicesAux_quadsub (R : GatingResults) (gid : String) (gate_path : PyPath)
    (r0 : ReportRow) (q : String) (subs : List (String × GateRecord))
    (s0 : String × GateRecord) (hgr : gateRows R gid = [r0])
    (hqp : r0.quadrant_parent = some q)
    (hdl : dictLookup R.raw_results (q, gate_path) = some (RawRes.quad subs))
    (hfind : subs.find? (fun s => decide (s.1 = gid)) = some s0) :
    gateIndicesAux R gid gate_path = GateIndicesResult.ok s0.2.events := by
  rw [gateIndicesAux.eq_def, hgr]
  simp only [List.map_cons, List.map_nil, hqp, dedupSingleton]
  show (match dictLookup R.raw_results (q, gate_path) with
    | Option.none => GateIndicesResult.keyErrorRawKey
    | some (RawRes.simple _) => GateIndicesResult.keyErrorSubId
    | some (RawRes.quad subs) =>
        match (subs.find? (fun s => decide (s.1 = gid)) : Option (String × GateRecord)) with
        | Option.none => GateIndicesResult.keyErrorSubId
        | some s => GateIndicesResult.ok s.2.events) = _
  rw [hdl]
  show (match (subs.find? (fun s => decide (s.1 = gid)) : Option (String × GateRecord)) with
    | Option.none => GateIndicesResult.keyErrorSubId
    | some s => GateIndicesResult.ok s.2.events) = _
  rw [hfind]

theorem get_gate_count_of_multi (R : GatingResults) (gid : String)
    (h : 1 < (gateRows R gid).length) :
    get_gate_count R gid = ScalarResult.ambiguousNotImplemented := by
  simp only [get_gate_count]
  rw [if_pos h]

theorem get_gate_absolute_percent_of_multi (R : GatingResults) (gid : String)
    (h : 1 < (gateRows R gid).length) :
    get_gate_absolute_percent R gid = ScalarResult.ambiguousNotImplemented := by
  simp only [get_gate_absolute_percent]
  rw [if_pos h]

theorem get_gate_relative_percent_of_multi (R : GatingResults) (gid : String)
    (h : 1 < (gateRows R gid).length) :
    get_gate_relative_percent R gid = ScalarResult.ambiguousNotImplemented := by
  simp only [get_gate_relative_percent]
  rw [if_pos h]

theorem get_gate_count_of_single (R : GatingResults) (gid : String) (r0 : ReportRow)
    (h : gateRows R gid = [r0]) : get_gate_count R gid = ScalarResult.ok r0.count := by
  simp only [get_gate_count, h]
  rfl

theorem get_gate_absolute_percent_of_single (R : GatingResults) (gid : String) (r0 : ReportRow)
    (h : gateRows R gid = [r0]) :
    get_gate_absolute_percent R gid = ScalarResult.ok r0.absolute_percent := by
  simp only [get_gate_absolute_percent, h]
  rfl

theorem get_gate_relative_percent_of_single (R : GatingResults) (gid : String) (r0 : ReportRow)
    (h : gateRows R gid = [r0]) :
    get_gate_relative_percent R gid = ScalarResult.ok r0.relative_percent := by
  simp only [get_gate_relative_percent, h]
  rfl

theorem get_gate_count_of_nil (R : GatingResults) (gid : String)
    (h : gateRows R gid = []) : get_gate_count R gid = ScalarResult.indexError := by
  simp only [get_gate_count, h]
  rfl

theorem get_gate_absolute_percent_of_nil (R : GatingResults) (gid : String)
    (h : gateRows R gid = []) :
    get_gate_absolute_percent R gid = ScalarResult.indexError := by
  simp only [get_gate_absolute_percent, h]
  rfl

theorem get_gate_relative_percent_of_nil (R : GatingResults) (gid : String)
    (h : gateRows R gid = []) :
    get_gate_relative_percent R gid = ScalarResult.indexError := by
  simp only [get_gate_relative_percent, h]
  rfl

/-- An entry that does not register `gid` contributes no report row with
that gate id, whatever the sample filter does. -/
theorem filter_resultRowsFor_of_not_contributing (sid gid : String)
    (e : (String × PyPath) × RawRes) (h : entryLutPaths gid e = []) :
    (resultRowsFor e).filter (rowMatches sid gid) = [] := by
  obtain ⟨⟨gId, gPath⟩, r | subs⟩ := e
  · have hg : ¬ gId = gid := by
      intro hg
      rw [entryLutPaths, if_pos hg] at h
      cases h
    simp [resultRowsFor, rowMatches, get_pd_result_dict, hg]
  · rw [entryLutPaths] at h
    have hsub : ∀ s ∈ subs, ¬ (s.1 = gid) := by
      intro s hs hgid
      have : s ∈ subs.filter fun s => decide (s.1 = gid) :=
        List.mem_filter.mpr ⟨hs, by simp [hgid]⟩
      rw [List.map_eq_nil_iff.mp h] at this
      cases this
    rw [resultRowsFor, List.filter_map]
    have hnone : ∀ s ∈ subs,
        (rowMatches sid gid ∘ fun s =>
          { get_pd_result_dict s.2 s.1 with quadrant_parent := some gId }) s = false := by
      intro s hs
      simp [rowMatches, get_pd_result_dict, hsub s hs]
    rw [List.filter_congr hnone]
    simp

theorem filter_pdList_of_unknown (sid gid : String) (raw : RawResults)
    (h : lutPaths gid raw = []) :
    (pdList raw).filter (rowMatches sid gid) = [] := by
  induction raw with
  | nil => rfl
  | cons e t ih =>
      rw [lutPaths, List.append_eq_nil] at h
      rw [pdList, List.filter_append,
        filter_resultRowsFor_of_not_contributing sid gid e h.1, ih h.2, List.append_nil]

/-- More than one distinct `quadrant_parent` among the selected rows: the
quadrant check falls through to the internal-consistency `ValueError`. -/
theorem gateIndicesAux_of_multi_dedup (R : GatingResults) (gid : String) (gate_path : PyPath)
    (h : 1 < (((gateRows R gid).map fun row => row.quadrant_parent).dedup).length) :
    gateIndicesAux R gid gate_path = GateIndicesResult.multipleQuadParents := by
  rw [gateIndicesAux.eq_def]
  rcases hd : ((gateRows R gid).map fun row => row.quadrant_parent).dedup with _ | ⟨a, _ | ⟨b, t2⟩⟩
  · rw [hd] at h
    simp at h
  · rw [hd] at h
    simp at h
  · rw [hd]
    cases a <;> rfl

/-- A single distinct `quadrant_parent` value: the quadrant check never
reaches the internal-consistency `ValueError`. -/
theorem gateIndicesAux_ne_of_dedup_singleton (R : GatingResults) (gid : String)
    (gp : PyPath) (x : Option String)
    (hd : (((gateRows R gid).map fun row => row.quadrant_parent).dedup) = [x]) :
    gateIndicesAux R gid gp ≠ GateIndicesResult.multipleQuadParents := by
  rw [gateIndicesAux.eq_def, hd]
  cases x with
  | none =>
      show (match dictLookup R.raw_results (gid, gp) with
        | Option.none => GateIndicesResult.keyErrorRawKey
        | some (RawRes.simple r) => GateIndicesResult.ok r.events
        | some (RawRes.quad _) => GateIndicesResult.keyErrorEventsField) ≠ _
      rcases h2 : dictLookup R.raw_results (gid, gp) with _ | (r | subs)
      all_goals exact fun hcontra => GateIndicesResult.noConfusion hcontra
  | some q =>
      show (match dictLookup R.raw_results (q, gp) with
        | Option.none => GateIndicesResult.keyErrorRawKey
        | some (RawRes.simple _) => GateIndicesResult.keyErrorSubId
        | some (RawRes.quad subs) =>
            match (subs.find? (fun s => decide (s.1 = gid)) : Option (String × GateRecord)) with
            | Option.none => GateIndicesResult.keyErrorSubId
            | some s => GateIndicesResult.ok s.2.events) ≠ _
      rcases h2 : dictLookup R.raw_results (q, gp) with _ | (r | subs)
      · exact fun hcontra => GateIndicesResult.noConfusion hcontra
      · exact fun hcontra => GateIndicesResult.noConfusion hcontra
      · show (match (subs.find? (fun s => decide (s.1 = gid)) : Option (String × GateRecord)) with
          | Option.none => GateIndicesResult.keyErrorSubId
          | some s => GateIndicesResult.ok s.2.events) ≠ _
        rcases h3 : subs.find? (fun s => decide (s.1 = gid)) with _ | s
        all_goals rw [h3]
        all_goals exact fun hcontra => GateIndicesResult.noConfusion hcontra

/-- None of the four query methods writes to the instance. -/
theorem runQuery_state (R : GatingResults) (q : Query) : (runQuery R q).2 = R := by
  cases q <;> rfl

/-- Every flattened row carries `level = len(gate_path)`. -/
theorem level_of_mem_pdList (raw : RawResults) (row : ReportRow)
    (h : row ∈ pdList raw) : row.level = row.gate_path.length := by
  induction raw with
  | nil => cases h
  | cons e t ih =>
      rw [pdList] at h
      rcases List.mem_append.mp h with h1 | h1
      · obtain ⟨⟨gId, gPath⟩, r | subs⟩ := e
        · rw [resultRowsFor, List.mem_singleton] at h1
          subst h1
          rfl
        · rw [resultRowsFor] at h1
          obtain ⟨s, hs, hrow⟩ := List.mem_map.mp h1
          subst hrow
          rfl
      · exact ih h1

/-- Master lemma for an unambiguous gate id (exactly one lut path): the
report selection is a single row coming from the unique contributing
entry, `get_gate_indices` succeeds with that entry's stored membership
vector for every `gate_path` argument, and under the count invariant the
row's count is the vector's count of `true`. -/
theorem lut_singleton_master (raw : RawResults) (sid gid : String) (p : PyPath)
    (hwf : WF raw sid) (h1 : lutPaths gid raw = [p]) :
    ∃ e ∈ raw, entryLutPaths gid e = [p] ∧
      (∀ e2 ∈ raw, contributesTo gid e2 → e2 = e) ∧
      ∃ ev r0, entryEventsFor gid e = some ev ∧
        gateRows (GatingResults.build raw sid) gid = [r0] ∧
        (entryCountsOK e → r0.count = ev.count true) ∧
        ∀ a, get_gate_indices (GatingResults.build raw sid) gid a = GateIndicesResult.ok ev := by
  obtain ⟨hnd, hw⟩ := hwf
  obtain ⟨e, he, hsing, huniq, hfilt⟩ := lut_unique_entry sid gid p raw hw h1
  refine ⟨e, he, hsing, huniq, ?_⟩
  have hwe : entryWF sid e := hw e he
  have hlut : lutGet (buildLut raw) gid = some [p] := by
    rw [lutGet_buildLut, h1]
    rfl
  obtain ⟨⟨gId, gPath⟩, r | subs⟩ := e
  · -- plain record
    have hg : gId = gid := by
      by_cases hg : gId = gid
      · exact hg
      · rw [entryLutPaths, if_neg hg] at hsing
        cases hsing
    have hp : gPath = p := by
      rw [entryLutPaths, if_pos hg] at hsing
      exact (List.cons_eq_cons.mp hsing).1
    subst hg hp
    have hrows : (resultRowsFor ((gId, gPath), RawRes.simple r)).filter (rowMatches sid gId) =
        [get_pd_result_dict r gId] := by
      rw [filter_resultRowsFor sid gId _ hwe]
      simp
    have hgr : gateRows (GatingResults.build raw sid) gId = [get_pd_result_dict r gId] := by
      have := gateRows_perm raw sid gId
      rw [hfilt, hrows] at this
      exact List.perm_singleton.mp this
    refine ⟨r.events, get_pd_result_dict r gId, ?_, hgr, ?_, ?_⟩
    · simp [entryEventsFor]
    · intro hc
      exact hc
    · intro a
      have hdl : dictLookup raw (gId, gPath) = some (RawRes.simple r) :=
        dictLookup_of_mem raw _ hnd he
      rw [get_gate_indices_of_single _ _ gPath hlut a]
      exact gateIndicesAux_simple _ _ _ _ r hgr rfl hdl
  · -- quadrant record
    have hand : (subs.map fun s => s.1).Nodup ∧ ∀ s ∈ subs, s.2.sample = sid := hwe
    obtain ⟨hsnd, hssamp⟩ := hand
    rw [entryLutPaths] at hsing
    cases hfl : subs.filter (fun s => decide (s.1 = gid)) with
    | nil =>
        rw [hfl] at hsing
        cases hsing
    | cons s0 rest =>
        rw [hfl, List.map_cons] at hsing
        obtain ⟨hp, hrest⟩ := List.cons_eq_cons.mp hsing
        have hrestnil : rest = [] := List.map_eq_nil_iff.mp hrest
        subst hp hrestnil
        have hs0 : s0 ∈ subs := List.mem_of_mem_filter (hfl ▸ List.mem_cons_self s0 [])
        have hfind : subs.find? (fun s => decide (s.1 = gid)) = some s0 :=
          find?_of_filter_singleton _ subs s0 hfl
        have hrows : (resultRowsFor ((gId, gPath), RawRes.quad subs)).filter (rowMatches sid gid) =
            [{ get_pd_result_dict s0.2 s0.1 with quadrant_parent := some gId }] := by
          rw [filter_resultRowsFor sid gid _ hwe]
          show ((subs.filter fun s => decide (s.1 = gid)).map fun s =>
            { get_pd_result_dict s.2 s.1 with quadrant_parent := some gId }) = _
          rw [hfl, List.map_cons, List.map_nil]
        have hgr : gateRows (GatingResults.build raw sid) gid =
            [{ get_pd_result_dict s0.2 s0.1 with quadrant_parent := some gId }] := by
          have := gateRows_perm raw sid gid
          rw [hfilt, hrows] at this
          exact List.perm_singleton.mp this
        refine ⟨s0.2.events, _, ?_, hgr, ?_, ?_⟩
        · simp [entryEventsFor, hfind]
        · intro hc
          exact hc s0 hs0
        · intro a
          have hdl : dictLookup raw (gId, gPath) = some (RawRes.quad subs) :=
            dictLookup_of_mem raw _ hnd he
          rw [get_gate_indices_of_single _ _ gPath hlut a]
          exact gateIndicesAux_quadsub _ _ _ _ gId subs s0 hgr rfl hdl hfind


theorem eq_singleton_of_short {α : Type} (l : List α) (hne : l ≠ [])
    (hle : ¬ 1 < l.length) : ∃ a, l = [a] := by
  cases l with
  | nil => exact absurd rfl hne
  | cons a t =>
      cases t with
      | nil => exact ⟨a, rfl⟩
      | cons b t2 =>
          exfalso
          apply hle
          simp only [List.length_cons]
          omega

/-- Claim C2: for every gate id registered at exactly one path, the number
of `true` entries of the membership vector returned by
`get_gate_indices(gate_id)` equals the integer returned by
`get_gate_count(gate_id)`. -/
theorem claim2_sum_indices_eq_count (raw : RawResults) (sid gid : String) (p : PyPath)
    (hwf : WF raw sid) (hcc : CountsConsistent raw) (h1 : lutPaths gid raw = [p]) :
    ∃ v n, get_gate_indices (GatingResults.build raw sid) gid none = GateIndicesResult.ok v ∧
      get_gate_count (GatingResults.build raw sid) gid = ScalarResult.ok n ∧
      v.count true = n := by
  obtain ⟨e, he, hsing, huniq, ev, r0, hev, hgr, hcnt, hind⟩ :=
    lut_singleton_master raw sid gid p hwf h1
  exact ⟨ev, r0.count, hind none, get_gate_count_of_single _ _ _ hgr,
    (hcnt (hcc e he)).symm⟩

/-- Witness for claim C2 on a concrete instance: gate `A` occurs at the
single path `(root)`. -/
theorem claim2_witness :
    ∃ v n, get_gate_indices (GatingResults.build wRaw "s") "A" none = GateIndicesResult.ok v ∧
      get_gate_count (GatingResults.build wRaw "s") "A" = ScalarResult.ok n ∧
      v.count true = n :=
  claim2_sum_indices_eq_count wRaw "s" "A" (PyPath.seq ["root"])
    (by decide) (by decide) (by decide)

/-- Claim C3: the three id-only accessors raise the ambiguity
`NotImplementedError` exactly when the gate id occurs at more than one
path, and otherwise return the `count` / `absolute_percent` /
`relative_percent` of the unique report row for that id. -/
theorem claim3_scalar_accessors (raw : RawResults) (sid gid : String) (hwf : WF raw sid) :
    (1 < (lutPaths gid raw).length →
      get_gate_count (GatingResults.build raw sid) gid = ScalarResult.ambiguousNotImplemented ∧
      get_gate_absolute_percent (GatingResults.build raw sid) gid =
        ScalarResult.ambiguousNotImplemented ∧
      get_gate_relative_percent (GatingResults.build raw sid) gid =
        ScalarResult.ambiguousNotImplemented) ∧
    (∀ p, lutPaths gid raw = [p] →
      ∃ r0, gateRows (GatingResults.build raw sid) gid = [r0] ∧
        get_gate_count (GatingResults.build raw sid) gid = ScalarResult.ok r0.count ∧
        get_gate_absolute_percent (GatingResults.build raw sid) gid =
          ScalarResult.ok r0.absolute_percent ∧
        get_gate_relative_percent (GatingResults.build raw sid) gid =
          ScalarResult.ok r0.relative_percent) := by
  constructor
  · intro h
    have hlen : 1 < (gateRows (GatingResults.build raw sid) gid).length := by
      rw [length_gateRows raw sid gid hwf.2]
      exact h
    exact ⟨get_gate_count_of_multi _ _ hlen, get_gate_absolute_percent_of_multi _ _ hlen,
      get_gate_relative_percent_of_multi _ _ hlen⟩
  · intro p h1
    obtain ⟨e, he, hsing, huniq, ev, r0, hev, hgr, hcnt, hind⟩ :=
      lut_singleton_master raw sid gid p hwf h1
    exact ⟨r0, hgr, get_gate_count_of_single _ _ _ hgr,
      get_gate_absolute_percent_of_single _ _ _ hgr,
      get_gate_relative_percent_of_single _ _ _ hgr⟩

/-- Witness for claim C3 on a concrete instance: gate `X` occurs at two
paths, so all three accessors raise the ambiguity error. -/
theorem claim3_witness :
    get_gate_count (GatingResults.build wRaw "s") "X" = ScalarResult.ambiguousNotImplemented ∧
    get_gate_absolute_percent (GatingResults.build wRaw "s") "X" =
      ScalarResult.ambiguousNotImplemented ∧
    get_gate_relative_percent (GatingResults.build wRaw "s") "X" =
      ScalarResult.ambiguousNotImplemented :=
  (claim3_scalar_accessors wRaw "s" "X" (by decide)).1 (by decide)

/-- Claim C4: for a gate id occurring at more than one path, calling
`get_gate_indices` with `gate_path` omitted raises the ambiguity
`ValueError`. -/
theorem claim4_ambiguous_requires_path (raw : RawResults) (sid gid : String)
    (h : 1 < (lutPaths gid raw).length) :
    get_gate_indices (GatingResults.build raw sid) gid none =
      GateIndicesResult.ambiguousError := by
  have hne : lutPaths gid raw ≠ [] := by
    intro h0
    rw [h0] at h
    simp at h
  have hlut : lutGet (GatingResults.build raw sid).gate_lut gid =
      some (lutPaths gid raw) := by
    show lutGet (buildLut raw) gid = _
    rw [lutGet_buildLut, if_neg hne]
  exact get_gate_indices_of_multi_none _ _ _ hlut h

/-- Witness for claim C4 on a concrete instance: gate `X` occurs at two
paths. -/
theorem claim4_witness :
    get_gate_indices (GatingResults.build wRaw "s") "X" none =
      GateIndicesResult.ambiguousError :=
  claim4_ambiguous_requires_path wRaw "s" "X" (by decide)

/-- Claim C5: for a gate id registered at exactly one path, the
`gate_path` argument is ignored — every call returns the stored membership
vector of the unique record for that id. -/
theorem claim5_unambiguous_ignores_path (raw : RawResults) (sid gid : String) (p : PyPath)
    (e : (String × PyPath) × RawRes) (v : List Bool)
    (hwf : WF raw sid) (h1 : lutPaths gid raw = [p]) (he : e ∈ raw)
    (hc : contributesTo gid e) (hv : entryEventsFor gid e = some v) :
    ∀ a, get_gate_indices (GatingResults.build raw sid) gid a = GateIndicesResult.ok v := by
  obtain ⟨e2, he2, hsing, huniq, ev, r0, hev, hgr, hcnt, hind⟩ :=
    lut_singleton_master raw sid gid p hwf h1
  have heq : e = e2 := huniq e he hc
  subst heq
  rw [hv] at hev
  injection hev with hveq
  subst hveq
  exact hind

/-- Witness for claim C5 on a concrete instance: quadrant sub-gate `Qp1`
is unambiguous and a bogus string path argument is ignored. -/
theorem claim5_witness :
    get_gate_indices (GatingResults.build wRaw "s") "Qp1" (some (PathArg.str "bogus")) =
      GateIndicesResult.ok [true, false, false] :=
  claim5_unambiguous_ignores_path wRaw "s" "Qp1" (PyPath.seq ["root"]) wQuadEntry
    [true, false, false] (by decide) (by decide) (by decide) (by decide) (by decide)
    (some (PathArg.str "bogus"))

/-- Claim C6: construction flattens the raw records — a quadrant record
contributes exactly one row per sub-gate id, each tagged with the quadrant
gate's id as `quadrant_parent`; a plain record contributes exactly one row
with `quadrant_parent` null; and every report row has
`level = len(gate_path)`. -/
theorem claim6_construction_flattens (raw : RawResults) (sid : String) :
    ((GatingResults.build raw sid).report).Perm (pdList raw) ∧
    (∀ e ∈ raw, ∀ subs, e.2 = RawRes.quad subs →
      ((resultRowsFor e).map fun row => row.gate_id) = (subs.map fun s => s.1) ∧
      ∀ row ∈ resultRowsFor e, row.quadrant_parent = some e.1.1) ∧
    (∀ e ∈ raw, ∀ r, e.2 = RawRes.simple r →
      (resultRowsFor e).length = 1 ∧
      ∀ row ∈ resultRowsFor e, row.quadrant_parent = none) ∧
    (∀ row ∈ (GatingResults.build raw sid).report, row.level = row.gate_path.length) := by
  refine ⟨report_perm_pdList raw sid, ?_, ?_, ?_⟩
  · rintro ⟨⟨gId, gPath⟩, res⟩ he subs hres
    cases hres
    constructor
    · simp [resultRowsFor, get_pd_result_dict]
    · intro row hrow
      rw [resultRowsFor] at hrow
      obtain ⟨s, hs, hrow2⟩ := List.mem_map.mp hrow
      subst hrow2
      rfl
  · rintro ⟨⟨gId, gPath⟩, res⟩ he r hres
    cases hres
    refine ⟨rfl, ?_⟩
    intro row hrow
    rw [resultRowsFor, List.mem_singleton] at hrow
    subst hrow
    rfl
  · intro row hrow
    exact level_of_mem_pdList raw row ((report_perm_pdList raw sid).mem_iff.mp hrow)

/-- Witness for claim C6 on a concrete instance. -/
theorem claim6_witness :
    ((GatingResults.build wRaw "s").report).Perm (pdList wRaw) :=
  (claim6_construction_flattens wRaw "s").1

/-- Claim C7: on a valid call (path supplied), `get_gate_indices` raises
the internal-consistency "multiple quadrant parents" `ValueError` exactly
when the selected report rows carry more than one distinct
`quadrant_parent` value. -/
theorem claim7_multiple_quadrant_parents (raw : RawResults) (sid gid : String)
    (hwf : WF raw sid) :
    (1 < ((((gateRows (GatingResults.build raw sid) gid).map
          fun row => row.quadrant_parent).dedup).length) →
      ∀ a : PathArg, get_gate_indices (GatingResults.build raw sid) gid (some a) =
        GateIndicesResult.multipleQuadParents) ∧
    (∀ a : Option PathArg,
      get_gate_indices (GatingResults.build raw sid) gid a =
        GateIndicesResult.multipleQuadParents →
      1 < ((((gateRows (GatingResults.build raw sid) gid).map
          fun row => row.quadrant_parent).dedup).length)) := by
  constructor
  · intro h a
    have hrne : gateRows (GatingResults.build raw sid) gid ≠ [] := by
      intro h0
      rw [h0] at h
      simp at h
    have hne : lutPaths gid raw ≠ [] := by
      intro h0
      apply hrne
      apply List.length_eq_zero.mp
      rw [length_gateRows raw sid gid hwf.2, h0]
      rfl
    have hlut : lutGet (GatingResults.build raw sid).gate_lut gid =
        some (lutPaths gid raw) := by
      show lutGet (buildLut raw) gid = _
      rw [lutGet_buildLut, if_neg hne]
    by_cases hcase : 1 < (lutPaths gid raw).length
    · rw [get_gate_indices_of_multi_some _ _ _ a hlut hcase]
      exact gateIndicesAux_of_multi_dedup _ _ _ h
    · obtain ⟨p, hp⟩ := eq_singleton_of_short (lutPaths gid raw) hne hcase
      rw [hp] at hlut
      rw [get_gate_indices_of_single _ _ p hlut (some a)]
      exact gateIndicesAux_of_multi_dedup _ _ _ h
  · intro a heq
    by_contra hnot
    cases hlg : lutGet (GatingResults.build raw sid).gate_lut gid with
    | none =>
        rw [get_gate_indices_of_none _ _ hlg a] at heq
        exact GateIndicesResult.noConfusion heq
    | some ps =>
        have hbl : lutGet (buildLut raw) gid = some ps := hlg
        rw [lutGet_buildLut] at hbl
        have hne : lutPaths gid raw ≠ [] := by
          intro h0
          rw [if_pos h0] at hbl
          exact Option.noConfusion hbl
        rw [if_neg hne] at hbl
        have hps : ps = lutPaths gid raw := (Option.some.injEq _ _ ▸ hbl).symm
        have hrne : gateRows (GatingResults.build raw sid) gid ≠ [] := by
          intro h0
          apply hne
          apply List.length_eq_zero.mp
          rw [← length_gateRows raw sid gid hwf.2, h0]
          rfl
        have hdne : (((gateRows (GatingResults.build raw sid) gid).map
            fun row => row.quadrant_parent).dedup) ≠ [] := by
          intro h0
          rw [List.dedup_eq_nil, List.map_eq_nil_iff] at h0
          exact hrne h0
        obtain ⟨x, hx⟩ := eq_singleton_of_short _ hdne hnot
        by_cases hcase : 1 < ps.length
        · cases a with
          | none =>
              rw [get_gate_indices_of_multi_none _ _ _ hlg hcase] at heq
              exact GateIndicesResult.noConfusion heq
          | some pa =>
              rw [get_gate_indices_of_multi_some _ _ _ pa hlg hcase] at heq
              exact gateIndicesAux_ne_of_dedup_singleton _ _ _ x hx heq
        · have hpsne : ps ≠ [] := by
            rw [hps]
            exact hne
          obtain ⟨p, hp⟩ := eq_singleton_of_short ps hpsne hcase
          rw [hp] at hlg
          rw [get_gate_indices_of_single _ _ p hlg a] at heq
          exact gateIndicesAux_ne_of_dedup_singleton _ _ _ x hx heq

/-- Witness for claim C7 on a concrete instance: sub-gate `D` occurs under
two distinct quadrant parents `Q1` and `Q2`. -/
theorem claim7_witness :
    get_gate_indices (GatingResults.build mqpRaw "s") "D" (some (PathArg.str "x")) =
      GateIndicesResult.multipleQuadParents :=
  (claim7_multiple_quadrant_parents mqpRaw "s" "D" (by decide)).1 (by decide) (PathArg.str "x")

/-- Claim C9: no query operation mutates a constructed Results instance —
after any sequence of queries the raw results, sample id, gate lookup
table and report are unchanged. -/
theorem claim9_queries_do_not_mutate (raw : RawResults) (sid : String) (qs : List Query) :
    runQueries (GatingResults.build raw sid) qs = GatingResults.build raw sid ∧
    (runQueries (GatingResults.build raw sid) qs).raw_results = raw ∧
    (runQueries (GatingResults.build raw sid) qs).sample_id = sid ∧
    (runQueries (GatingResults.build raw sid) qs).gate_lut = buildLut raw ∧
    (runQueries (GatingResults.build raw sid) qs).report = report_of raw := by
  have hgen : ∀ qs2 : List Query, runQueries (GatingResults.build raw sid) qs2 =
      GatingResults.build raw sid := by
    intro qs2
    induction qs2 with
    | nil => rfl
    | cons q t ih =>
        rw [runQueries, List.foldl_cons, runQuery_state]
        exact ih
  have h := hgen qs
  exact ⟨h, by rw [h]; rfl, by rw [h]; rfl, by rw [h]; rfl, by rw [h]; rfl⟩

/-- Witness for claim C9 on a concrete instance and query list. -/
theorem claim9_witness :
    runQueries (GatingResults.build wRaw "s")
        [Query.count "A", Query.indices "X" none, Query.absPct "nope", Query.relPct "Qp1"] =
      GatingResults.build wRaw "s" :=
  (claim9_queries_do_not_mutate wRaw "s"
    [Query.count "A", Query.indices "X" none, Query.absPct "nope", Query.relPct "Qp1"]).1

/-- Claim C10: for a gate id occurring at no path, `get_gate_indices`
raises `KeyError` from the lookup-table access and the three scalar
accessors raise `IndexError` from indexing an empty selection. -/
theorem claim10_unknown_gate_id (raw : RawResults) (sid gid : String)
    (h : lutPaths gid raw = []) :
    (∀ a, get_gate_indices (GatingResults.build raw sid) gid a =
      GateIndicesResult.keyErrorLut) ∧
    get_gate_count (GatingResults.build raw sid) gid = ScalarResult.indexError ∧
    get_gate_absolute_percent (GatingResults.build raw sid) gid = ScalarResult.indexError ∧
    get_gate_relative_percent (GatingResults.build raw sid) gid = ScalarResult.indexError := by
  have hlut : lutGet (GatingResults.build raw sid).gate_lut gid = none := by
    show lutGet (buildLut raw) gid = none
    rw [lutGet_buildLut, if_pos h]
  have hgr : gateRows (GatingResults.build raw sid) gid = [] := by
    have hperm := gateRows_perm raw sid gid
    rw [filter_pdList_of_unknown sid gid raw h] at hperm
    exact List.Perm.eq_nil hperm
  exact ⟨fun a => get_gate_indices_of_none _ _ hlut a,
    get_gate_count_of_nil _ _ hgr, get_gate_absolute_percent_of_nil _ _ hgr,
    get_gate_relative_percent_of_nil _ _ hgr⟩

/-- Witness for claim C10 on a concrete instance: gate id `nope` is
unknown. -/
theorem claim10_witness :
    get_gate_count (GatingResults.build wRaw "s") "nope" = ScalarResult.indexError ∧
    get_gate_absolute_percent (GatingResults.build wRaw "s") "nope" = ScalarResult.indexError ∧
    get_gate_relative_percent (GatingResults.build wRaw "s") "nope" = ScalarResult.indexError :=
  (claim10_unknown_gate_id wRaw "s" "nope" (by decide)).2

theorem c8_count (k : Nat) : (c8Events k).count true = 558 := by
  rw [c8Events, List.count_append, List.count_replicate_self, List.count_replicate]
  rfl

theorem c8_gateRows (k : Nat) : gateRows (GatingResults.build (c8Raw k) ("s")) ("B") =
    [get_pd_result_dict (mkOutcomeRecord ("s") ["root", "A"] (some "A") ("RectangleGate")
      (c8Events k) (558 + k) (558 + k)) ("B")] := by
  have hrowsB : (pdList (c8Raw k)).filter (rowMatches ("s") ("B")) =
      [get_pd_result_dict (mkOutcomeRecord ("s") ["root", "A"] (some "A") ("RectangleGate")
        (c8Events k) (558 + k) (558 + k)) ("B")] := by
    simp [pdList, c8Raw, resultRowsFor, rowMatches, get_pd_result_dict, mkOutcomeRecord]
  have hperm := gateRows_perm (c8Raw k) ("s") ("B")
  rw [hrowsB] at hperm
  exact List.perm_singleton.mp hperm

/-- Claim C1 (evaluation of the code at the failing input): gate id `X` is
stored at the two sequence paths `(root, A)` and `(root, B)`; supplying the
full gate path as a list or as a `/`-delimited string (with or without a
leading slash) makes `get_gate_indices` raise `KeyError` from the
raw-results lookup instead of returning the stored membership vector — the
list is joined into a string key that can never equal a stored
sequence-path key.  The record does exist under the sequence key, and a
tuple-valued path argument (which the code leaves unconverted) retrieves
it. -/
theorem claim1_path_lookup_keyerror :
    get_gate_indices (GatingResults.build wRaw ("s")) ("X")
        (some (PathArg.list ["root", "A"])) = GateIndicesResult.keyErrorRawKey ∧
    get_gate_indices (GatingResults.build wRaw ("s")) ("X")
        (some (PathArg.str "root/A")) = GateIndicesResult.keyErrorRawKey ∧
    get_gate_indices (GatingResults.build wRaw ("s")) ("X")
        (some (PathArg.str "/root/A")) = GateIndicesResult.keyErrorRawKey ∧
    dictLookup wRaw ("X", PyPath.seq ["root", "A"]) =
      some (RawRes.simple (sampleRecord ("s") ["root", "A"] 1 [true, false, false])) ∧
    get_gate_indices (GatingResults.build wRaw ("s")) ("X")
        (some (PathArg.tup ["root", "A"])) = GateIndicesResult.ok [true, false, false] := by
  refine ⟨by decide, by decide, by decide, by decide, by decide⟩

set_option maxRecDepth 8000 in
/-- Claim C8 (amended): in the end-to-end example — parent gate `A`
covering the whole sample of `558 + k` events, gate `B` matching 558 of
them — `get_gate_count("B")` returns 558 and
`get_gate_absolute_percent("B")` returns `(558 / event_count) * 100`; but
`get_gate_relative_percent("B")` returns
`(558 / parent_count) * 100 = (558 / event_count) * 100` as well (the same
value as the absolute percent), not `100.0`. -/
theorem claim8_amended (k : Nat) :
    get_gate_count (GatingResults.build (c8Raw k) ("s")) ("B") = ScalarResult.ok 558 ∧
    get_gate_absolute_percent (GatingResults.build (c8Raw k) ("s")) ("B") =
      ScalarResult.ok (100 * ((558 : Nat) : Rat) / ((558 + k : Nat) : Rat)) ∧
    get_gate_relative_percent (GatingResults.build (c8Raw k) ("s")) ("B") =
      ScalarResult.ok (100 * ((558 : Nat) : Rat) / ((558 + k : Nat) : Rat)) := by
  refine ⟨?_, ?_, ?_⟩
  · rw [get_gate_count_of_single _ _ _ (c8_gateRows k)]
    show ScalarResult.ok ((c8Events k).count true) = _
    rw [c8_count k]
  · rw [get_gate_absolute_percent_of_single _ _ _ (c8_gateRows k)]
    show ScalarResult.ok (100 * ((c8Events k).count true : Rat) / ((558 + k : Nat) : Rat)) = _
    rw [c8_count k]
  · rw [get_gate_relative_percent_of_single _ _ _ (c8_gateRows k)]
    show ScalarResult.ok (100 * ((c8Events k).count true : Rat) / ((558 + k : Nat) : Rat)) = _
    rw [c8_count k]

set_option maxRecDepth 8000 in
/-- Counterexample for claim C8 as stated: with `event_count = 1000`
(so 558 matching events out of 1000 and the parent covering the whole
sample), `get_gate_relative_percent("B")` returns `55.8 = 279/5`, not
`100.0`. -/
theorem claim8_counterexample :
    get_gate_relative_percent (GatingResults.build (c8Raw 442) ("s")) ("B") =
      ScalarResult.ok (279 / 5 : Rat) ∧ ((279 / 5 : Rat) ≠ 100) := by
  constructor
  · rw [get_gate_relative_percent_of_single _ _ _ (c8_gateRows 442)]
    show ScalarResult.ok (100 * ((c8Events 442).count true : Rat) / ((558 + 442 : Nat) : Rat)) = _
    rw [c8_count 442]
    have hval : (100 * ((558 : Nat) : Rat) / ((558 + 442 : Nat) : Rat)) = (279 / 5 : Rat) := by
      norm_num
    rw [hval]
  · norm_num

/-- Witness for claim C8 at the concrete sample size 1000. -/
theorem claim8_witness :
    get_gate_count (GatingResults.build (c8Raw 442) ("s")) ("B") = ScalarResult.ok 558 ∧
    get_gate_absolute_percent (GatingResults.build (c8Raw 442) ("s")) ("B") =
      ScalarResult.ok (100 * ((558 : Nat) : Rat) / ((558 + 442 : Nat) : Rat)) ∧
    get_gate_relative_percent (GatingResults.build (c8Raw 442) ("s")) ("B") =
      ScalarResult.ok (100 * ((558 : Nat) : Rat) / ((558 + 442 : Nat) : Rat)) :=
  claim8_amended 442
